import Mathlib

/-!
Verification of the RAS/OPT reconciliation core of the `onemap` school-bus
tracking service, against its natural-language specification.

The Python sources are shallowly embedded: Python strings become `List Char`
(called `Str` below) manipulated by executable models of the string methods
the code uses; dates become proleptic-Gregorian ordinals (`Int`); instants
become integers ordered like the UTC datetimes the code compares; floats
become `Rat`; values that upstream parsers may fail to produce become
`Option` fields.  Each definition carries a comment naming the source
function and lines it embeds.
-/

/-- Python strings are modelled as lists of characters. -/
abbrev Str := List Char

/-- Whitespace test used to model `str.strip()` (space, tab, LF, CR). -/
def isSpaceCh (c : Char) : Bool :=
  c.toNat = 32 || c.toNat = 9 || c.toNat = 10 || c.toNat = 13

/-- Model of `str.strip()` for the whitespace characters these sheets contain. -/
def pyStrip (s : Str) : Str :=
  ((s.dropWhile isSpaceCh).reverse.dropWhile isSpaceCh).reverse

/-- Model of `str.upper()` on the ASCII data these sheets contain. -/
def pyUpperChar (c : Char) : Char :=
  if 97 ≤ c.toNat ∧ c.toNat ≤ 122 then Char.ofNat (c.toNat - 32) else c

/-- Model of `str.lower()` on the ASCII data these sheets contain. -/
def pyLowerChar (c : Char) : Char :=
  if 65 ≤ c.toNat ∧ c.toNat ≤ 90 then Char.ofNat (c.toNat + 32) else c

/-- Model of `str.upper()`. -/
def pyUpper (s : Str) : Str := s.map pyUpperChar

/-- Model of `str.lower()`. -/
def pyLower (s : Str) : Str := s.map pyLowerChar

/-- Boolean prefix test on character lists. -/
def prefixB : Str → Str → Bool
  | [], _ => true
  | _ :: _, [] => false
  | a :: as, b :: bs => a == b && prefixB as bs

/-- Model of Python's `pat in s` substring test. -/
def containsSub (pat : Str) : Str → Bool
  | [] => prefixB pat []
  | c :: rest => prefixB pat (c :: rest) || containsSub pat rest

/-- Decimal-digit test on the ASCII data these sheets contain. -/
def isDig (c : Char) : Bool := 48 ≤ c.toNat && c.toNat ≤ 57

/-- Model of `str.isdigit()`: nonempty and all decimal digits. -/
def allDigits (s : Str) : Bool := !s.isEmpty && s.all isDig

/-- Model of `str.endswith('.0')`. -/
def endsDot0 (s : Str) : Bool :=
  match s.reverse with
  | c1 :: c2 :: _ => c1 == '0' && c2 == '.'
  | _ => false

/-- Model of `s[:-2]`, used after `endsDot0` succeeds. -/
def dropLast2 (s : Str) : Str := s.take (s.length - 2)

/-- Model of `vehicle_number[:-2] if vehicle_number.endswith('.0')`
(`data_sources.py` line 170, `app.py` line 281). -/
def stripDot0 (v : Str) : Str := if endsDot0 v then dropLast2 v else v

/-- Model of `re.sub(r'\D', '', vehicle_number)` (`app.py` line 282). -/
def keepDigits (s : Str) : Str := s.filter isDig

/-- Model of the 3-digit zero-padding step
(`data_sources.py` line 171, `app.py` line 283). -/
def pad3 (v : Str) : Str := if v.length = 3 && allDigits v then '0' :: v else v

/-- Model of the fleet-code prefixing step: `'NT' + v` when `v` is exactly 4
digits, else `v` unchanged (`data_sources.py` line 172, `app.py` lines 284-285). -/
def prefixNT (v : Str) : Str := if v.length = 4 && allDigits v then "NT".data ++ v else v

/- ### C1: current-week vs historical source switch

Embeds `app.py`, `get_map_data` lines 346-347 (the identical computation
also appears in `get_vehicles_from_preloaded_ras` lines 174-176):

    today = datetime.date.today()
    current_monday = today - datetime.timedelta(days=today.weekday())
    use_current_ras = (date_obj >= current_monday)

Dates are modelled by their proleptic-Gregorian ordinals
(`datetime.date.toordinal`), under which ordinal 1 (January 1 of year 1)
is a Monday. -/

/-- Model of `datetime.date.weekday()` on the date with the given ordinal:
Monday is 0, Sunday is 6. -/
def pyWeekday (o : ℤ) : ℤ := (o - 1) % 7

/-- Embeds `current_monday = today - datetime.timedelta(days=today.weekday())`
from `app.py` line 346. -/
def current_monday (today : ℤ) : ℤ := today - pyWeekday today

/-- Embeds `use_current_ras = (date_obj >= current_monday)` from `app.py`
line 347: `true` selects the current RAS snapshot, `false` the historical one. -/
def use_current_ras (today date_obj : ℤ) : Bool := decide (date_obj ≥ current_monday today)

/-- Specification-side predicate: `m` is the most recent Monday on or before
`today` (a Monday, not after today, and less than a week back). -/
def isMostRecentMonday (today m : ℤ) : Prop :=
  pyWeekday m = 0 ∧ m ≤ today ∧ today - m < 7

/- ### C4/C5: vehicle-number normalization and sentinel exclusion

Two distinct copies of the normalizer exist, and they disagree.

`data_sources.py`, `_get_ras_data_from_sheet` lines 168-175:

    vehicle_number = str(row_series['Vehicle#']).strip()
    if not vehicle_number or vehicle_number.lower() in ('nan', '', 'none', '#n/a'): continue
    if ... vehicle_number.endswith('.0'): vehicle_number = vehicle_number[:-2]
    if len(vehicle_number) == 3 and vehicle_number.isdigit(): vehicle_number = '0' + vehicle_number
    vehicle_full = 'NT' + vehicle_number if (len(vehicle_number) == 4 and vehicle_number.isdigit()) else vehicle_number

`app.py`, `get_vehicles_from_preloaded_ras` lines 277-287 adds `'na'` to the
sentinel set and additionally deletes every non-digit via `re.sub(r'\D', '', ...)`. -/

/-- Sentinel test of `data_sources.py` line 169 on the stripped value: falsy, or
lowercase equal to one of `nan`, `''`, `none`, `#n/a`. -/
def ds_sentinel (v : Str) : Bool :=
  v.isEmpty || (pyLower v == "nan".data) || (pyLower v == "none".data) ||
    (pyLower v == "#n/a".data)

/-- Sentinel test of `app.py` line 278, which also recognizes `na`. -/
def app_sentinel (v : Str) : Bool :=
  v.isEmpty || (pyLower v == "nan".data) || (pyLower v == "none".data) ||
    (pyLower v == "#n/a".data) || (pyLower v == "na".data)

/-- Embeds the vehicle cleaning of `data_sources.py` lines 168-172: `none`
means the row is skipped as "no vehicle assigned". -/
def ds_clean_vehicle (raw : Str) : Option Str :=
  if ds_sentinel (pyStrip raw) then none
  else some (prefixNT (pad3 (stripDot0 (pyStrip raw))))

/-- Embeds the vehicle cleaning of `app.py` lines 277-287, including the
`re.sub(r'\D', '', vehicle_number)` digit-filtering step. -/
def app_clean_vehicle (raw : Str) : Option Str :=
  if app_sentinel (pyStrip raw) then none
  else some (prefixNT (pad3 (keepDigits (stripDot0 (pyStrip raw)))))

/-- Modelled from the spec (section 4.3, quoted by claim C4): trim, strip a
trailing `.0`, left-pad a 3-digit value with one `0`, prefix a 4-digit value
with the fleet code `NT`, otherwise return the cleaned string unprefixed. -/
def c4_spec_normalize (raw : Str) : Str :=
  prefixNT (pad3 (stripDot0 (pyStrip raw)))

/-- One schedule row, as read by the vehicle-extraction loops: the stringified
`Route`, `Trip Type` and `Vehicle#` cells. -/
structure RasRow where
  route : Str
  tripType : Str
  vehicle : Str

/-- Route-to-vehicle maps under construction: AM and PM association lists,
where inserting an existing route key overwrites its value (Python dict). -/
abbrev VehMaps := List (Str × Str) × List (Str × Str)

/-- Python-dict insertion into an association list: replace the value of an
existing key, else append. -/
def dictInsert (k : Str) (v : Str) : List (Str × Str) → List (Str × Str)
  | [] => [(k, v)]
  | (k0, v0) :: rest => if k0 = k then (k, v) :: rest else (k0, v0) :: dictInsert k v rest

/-- Embeds one iteration of the vehicle-processing loop of
`data_sources.py` lines 165-175 acting on the AM/PM maps. -/
def ds_vehicle_step (maps : VehMaps) (row : RasRow) : VehMaps :=
  match ds_clean_vehicle row.vehicle with
  | none => maps
  | some vehicle_full =>
    let route := pyStrip row.route
    let am_pm := pyUpper (pyStrip row.tripType)
    if route.isEmpty then maps
    else if am_pm = "AM".data then (dictInsert route vehicle_full maps.1, maps.2)
    else if am_pm = "PM".data then (maps.1, dictInsert route vehicle_full maps.2)
    else maps

/-- Embeds one iteration of the vehicle-processing loop of
`app.py` lines 276-291 acting on the AM/PM maps. -/
def app_vehicle_step (maps : VehMaps) (row : RasRow) : VehMaps :=
  match app_clean_vehicle row.vehicle with
  | none => maps
  | some vehicle_full =>
    let route := pyStrip row.route
    let am_pm := pyUpper (pyStrip row.tripType)
    if route.isEmpty then maps
    else if am_pm = "AM".data then (dictInsert route vehicle_full maps.1, maps.2)
    else if am_pm = "PM".data then (maps.1, dictInsert route vehicle_full maps.2)
    else maps

/-- Embeds the full `data_sources.py` vehicle-processing loop over the
route/date-filtered rows. -/
def ds_vehicle_maps (rows : List RasRow) : VehMaps := rows.foldl ds_vehicle_step ([], [])

/-- Embeds the full `app.py` vehicle-processing loop over the
route/date-filtered rows. -/
def app_vehicle_maps (rows : List RasRow) : VehMaps := rows.foldl app_vehicle_step ([], [])

/- ### Helper lemmas on the string primitives -/

theorem dropWhile_eq_self_of_not (p : Char → Bool) (l : Str)
    (h : ∀ c ∈ l, p c = false) : l.dropWhile p = l := by
  cases l with
  | nil => rfl
  | cons a as =>
    rw [List.dropWhile_cons]
    simp [h a (List.mem_cons_self a as)]

theorem pyStrip_of_no_space (l : Str) (h : ∀ c ∈ l, isSpaceCh c = false) :
    pyStrip l = l := by
  unfold pyStrip
  rw [dropWhile_eq_self_of_not _ _ h,
      dropWhile_eq_self_of_not _ _ (fun c hc => h c (List.mem_reverse.mp hc)),
      List.reverse_reverse]

theorem isSpaceCh_eq_false_of_isDig (c : Char) (h : isDig c = true) :
    isSpaceCh c = false := by
  unfold isDig at h
  unfold isSpaceCh
  simp only [Bool.and_eq_true, decide_eq_true_eq] at h
  simp only [Bool.or_eq_false_iff, decide_eq_false_iff_not]
  omega

theorem pyStrip_keepDigits (l : Str) : pyStrip (keepDigits l) = keepDigits l := by
  apply pyStrip_of_no_space
  intro c hc
  exact isSpaceCh_eq_false_of_isDig c (List.of_mem_filter hc)

theorem endsDot0_keepDigits (l : Str) : endsDot0 (keepDigits l) = false := by
  unfold endsDot0
  cases hrev : (keepDigits l).reverse with
  | nil => rfl
  | cons c1 tail =>
    cases tail with
    | nil => rfl
    | cons c2 rest =>
      have hc2 : c2 ∈ keepDigits l := by
        rw [← List.mem_reverse, hrev]; simp
      have hdig : isDig c2 = true := List.of_mem_filter hc2
      have hne : c2 ≠ '.' := by
        intro h; rw [h] at hdig; exact absurd hdig (by decide)
      simp [hne]

/- ### Theorems for C1 -/

/-- C1. The resolver queries the current source exactly when the target date is
on or after the most recent Monday relative to `today`: `current_monday today`
is the unique most recent Monday, `use_current_ras` holds precisely on or after
it, the most recent Monday itself routes to the current source, and the day
before routes to the historical source. -/
theorem ras_source_switch_spec (today date_obj : ℤ) :
    (use_current_ras today date_obj = true ↔ current_monday today ≤ date_obj) ∧
    isMostRecentMonday today (current_monday today) ∧
    (∀ m : ℤ, isMostRecentMonday today m → m = current_monday today) ∧
    use_current_ras today (current_monday today) = true ∧
    use_current_ras today (current_monday today - 1) = false := by
  unfold use_current_ras isMostRecentMonday current_monday pyWeekday
  refine ⟨by simp [ge_iff_le], ⟨by omega, by omega, by omega⟩, ?_,
    by simp only [ge_iff_le, decide_eq_true_eq]; omega,
    by simp only [ge_iff_le, decide_eq_false_iff_not]; omega⟩
  intro m hm
  obtain ⟨h1, h2, h3⟩ := hm
  omega

/-- Witness for C1 at a concrete `today` (ordinal 739125, a Thursday): the most
recent Monday routes to the current source and the day before to the
historical source. -/
theorem ras_source_switch_witness :
    use_current_ras 739125 (current_monday 739125) = true ∧
    use_current_ras 739125 (current_monday 739125 - 1) = false :=
  ⟨(ras_source_switch_spec 739125 0).2.2.2.1, (ras_source_switch_spec 739125 0).2.2.2.2⟩

/- ### Theorems for C4 -/

/-- Counterexample for C4: on `"A123"` the `app.py` normalizer (cited by the
claim) strips the non-digit and produces `NT0123`, while the claimed algorithm
returns the cleaned string `"A123"` unprefixed. -/
theorem vehicle_norm_app_counterexample :
    app_clean_vehicle "A123".data ≠ some (c4_spec_normalize "A123".data) ∧
    app_clean_vehicle "A123".data = some "NT0123".data ∧
    c4_spec_normalize "A123".data = "A123".data :=
  ⟨by decide, by decide, by decide⟩

/-- C4 (amended). The sheet-helper normalizer (`data_sources.py`) follows the
claimed algorithm exactly on every non-sentinel input, in particular mapping
`"123"` to `NT0123` and `"1234.0"` to `NT1234`; the `app.py` normalizer first
deletes every non-digit character after stripping `.0`, i.e. it equals the
claimed algorithm applied to the digit-filtered value, so inputs containing
non-digit characters are not returned unchanged there. -/
theorem vehicle_norm_amended (raw : Str)
    (hds : ds_sentinel (pyStrip raw) = false)
    (happ : app_sentinel (pyStrip raw) = false) :
    ds_clean_vehicle raw = some (c4_spec_normalize raw) ∧
    app_clean_vehicle raw =
      some (c4_spec_normalize (keepDigits (stripDot0 (pyStrip raw)))) ∧
    ds_clean_vehicle "123".data = some "NT0123".data ∧
    ds_clean_vehicle "1234.0".data = some "NT1234".data ∧
    app_clean_vehicle "123".data = some "NT0123".data ∧
    app_clean_vehicle "1234.0".data = some "NT1234".data := by
  refine ⟨?_, ?_, by decide, by decide, by decide, by decide⟩
  · unfold ds_clean_vehicle c4_spec_normalize
    rw [hds]
    simp
  · unfold app_clean_vehicle c4_spec_normalize
    rw [happ]
    simp only [Bool.false_eq_true, if_false, Option.some.injEq]
    rw [pyStrip_keepDigits]
    unfold stripDot0
    rw [endsDot0_keepDigits]
    simp

/-- Witness for C4 (amended) at the concrete input `"123"`. -/
theorem vehicle_norm_amended_witness :
    ds_sentinel (pyStrip "123".data) = false ∧
    ds_clean_vehicle "123".data = some (c4_spec_normalize "123".data) :=
  ⟨by decide, (vehicle_norm_amended "123".data (by decide) (by decide)).1⟩

/- ### Theorems for C5 -/

theorem foldl_filter_of_id {α β : Type} (f : β → α → β) (p : α → Bool)
    (hid : ∀ b a, p a = false → f b a = b) :
    ∀ (l : List α) (b : β), l.foldl f b = (l.filter p).foldl f b := by
  intro l
  induction l with
  | nil => intro b; rfl
  | cons a as ih =>
    intro b
    by_cases hpa : p a = true
    · rw [List.foldl_cons, List.filter_cons_of_pos hpa, List.foldl_cons, ih]
    · rw [List.foldl_cons, List.filter_cons_of_neg (by simpa using hpa),
        hid b a (by simpa using hpa), ih]

theorem app_vehicle_step_sentinel (maps : VehMaps) (row : RasRow)
    (h : app_sentinel (pyStrip row.vehicle) = true) :
    app_vehicle_step maps row = maps := by
  simp only [app_vehicle_step, app_clean_vehicle, h, if_true]

theorem ds_vehicle_step_sentinel (maps : VehMaps) (row : RasRow)
    (h : ds_sentinel (pyStrip row.vehicle) = true) :
    ds_vehicle_step maps row = maps := by
  simp only [ds_vehicle_step, ds_clean_vehicle, h, if_true]

/-- Counterexample for C5: in the sheet-helper path (`data_sources.py`, cited by
the claim) a row whose raw vehicle value is `"na"` — case-insensitively equal to
the claimed sentinel `"na"` — is not excluded: it inserts the entry
`R1 ↦ na` into the AM route-to-vehicle map. -/
theorem sentinel_na_counterexample :
    ds_vehicle_maps [⟨"R1".data, "AM".data, "na".data⟩] ≠ ([], []) ∧
    ds_vehicle_maps [⟨"R1".data, "AM".data, "na".data⟩] =
      ([("R1".data, "na".data)], []) :=
  ⟨by decide, by decide⟩

/-- C5 (amended). In the preloaded-RAS path (`app.py`) every row whose stripped
vehicle value is empty or case-insensitively one of `nan`, `none`, `''`,
`#n/a`, `na` contributes no entry to either output map (processing a row list
equals processing it with such rows removed, and the step on such a row is the
identity); in the sheet-helper path (`data_sources.py`) the sentinel set omits
`na`, and only rows matching `nan`, `none`, `''`, `#n/a` are excluded. -/
theorem sentinel_excluded_amended (rows : List RasRow) (maps : VehMaps) (row : RasRow)
    (h : app_sentinel (pyStrip row.vehicle) = true) :
    app_vehicle_step maps row = maps ∧
    app_vehicle_maps rows =
      app_vehicle_maps (rows.filter (fun r => !app_sentinel (pyStrip r.vehicle))) ∧
    ds_vehicle_maps rows =
      ds_vehicle_maps (rows.filter (fun r => !ds_sentinel (pyStrip r.vehicle))) := by
  refine ⟨app_vehicle_step_sentinel maps row h, ?_, ?_⟩
  · exact foldl_filter_of_id _ _
      (fun b a ha => app_vehicle_step_sentinel b a (by simpa using ha)) rows ([], [])
  · exact foldl_filter_of_id _ _
      (fun b a ha => ds_vehicle_step_sentinel b a (by simpa using ha)) rows ([], [])

/-- Witness for C5 (amended) at a concrete sentinel row with vehicle `"NA"`. -/
theorem sentinel_excluded_amended_witness :
    app_sentinel (pyStrip "NA".data) = true ∧
    app_vehicle_step ([], []) ⟨"R1".data, "AM".data, "NA".data⟩ = ([], []) :=
  ⟨by decide,
    (sentinel_excluded_amended [] ([], []) ⟨"R1".data, "AM".data, "NA".data⟩ (by decide)).1⟩

/- ### C6/C7/C10: the exception annotator

Embeds `processing.py`, `annotate_log_records_with_exceptions` (lines 588-754).
Instants are integers ordered like the UTC datetimes the code compares
(seconds since an epoch, so `total_seconds()` of a difference is subtraction);
speeds are rationals.  A log feature carries the parse results of the
properties the function reads (`dateTime` via `parse_timestamp`, `speed` via
the numeric conversion of lines 610-620, where `none` stands for a missing,
string-valued or NaN speed that the code defaults to `0`), plus the fields the
function never touches. -/

/-- One GeoJSON log-record feature, as read and written by the annotator. -/
structure Feature where
  lon : ℚ
  lat : ℚ
  dtParsed : Option ℤ
  speedRaw : Option ℚ
  excType : Option Str
  excDetails : Option Str
  rest : Str
deriving DecidableEq

/-- One raw safety-exception record: the parse results of `rule_name`,
`start_time`, `end_time` (via `parse_timestamp`) and the `duration_s` value
when it is numeric and non-NaN. -/
structure RawExc where
  ruleName : Option Str
  startRaw : Option ℤ
  endRaw : Option ℤ
  durationS : Option ℚ
deriving DecidableEq

/-- One entry of the `parsed_logs` list built in lines 604-623. -/
structure PLog where
  dt : ℤ
  speed_kph : ℚ
deriving DecidableEq

/-- One processed exception (lines 683-686). -/
structure PExc where
  start : ℤ
  endT : ℤ
  type : Str
  details : Str
deriving DecidableEq

/-- Embeds the speed conversion of lines 610-620: a missing, string-valued or
NaN speed becomes `0.0`. -/
def speedOf (f : Feature) : ℚ := f.speedRaw.getD 0

/-- Embeds the `parsed_logs` construction of lines 604-623: only features with
a parseable timestamp survive. -/
def parseLogs (logs : List Feature) : List PLog :=
  logs.filterMap (fun f => f.dtParsed.map (fun dt => ⟨dt, speedOf f⟩))

/-- Round half to even of the fraction `num / den` (`den > 0`), written with
integer arithmetic only so that it evaluates by kernel reduction: `f` is the
floor and `r2` twice the fractional-part numerator, compared against `den`. -/
def roundHEAt (num den : ℤ) : ℤ :=
  let f := num.fdiv den
  let r2 := 2 * (num - f * den)
  if r2 < den then f
  else if r2 > den then f + 1
  else if f % 2 = 0 then f else f + 1

/-- Model of Python's `round()` (and of `int(round(x))`): round half to even. -/
def roundHE (q : ℚ) : ℤ := roundHEAt q.num q.den

/-- Decimal rendering of a natural number. -/
def natToStr (n : ℕ) : Str := (Nat.repr n).data

/-- Decimal rendering of an integer. -/
def intToStr (n : ℤ) : Str :=
  if n < 0 then '-' :: natToStr n.natAbs else natToStr n.natAbs

/-- Model of the f-string `f"{x:.1f}"` used for the duration (line 679):
round `10 * x` half to even and print with one decimal place. -/
def formatFixed1 (q : ℚ) : Str :=
  let n := roundHEAt (q.num * 10) q.den
  (if n < 0 then ['-'] else []) ++ natToStr (n.natAbs / 10) ++ '.' :: natToStr (n.natAbs % 10)

/-- The kph→mph factor `0.621371` of line 676 as a rational. -/
def mphFactor : ℚ := 621371 / 1000000

/-- Embeds the per-exception processing of lines 643-686: parse start/end
(skip the record when either is unparseable), swap a reversed window, take the
provided duration when numeric else `end - start`, and for exceptions whose
rule name contains `speeding` (case-insensitive) scan the parsed logs inside
`[start, end]` for the maximum speed and append it, converted to whole mph,
to the details string. -/
def processExc (parsedLogs : List PLog) (exc : RawExc) : Option PExc :=
  match exc.startRaw, exc.endRaw with
  | some s0, some e0 =>
    let s := if s0 > e0 then e0 else s0
    let e := if s0 > e0 then s0 else e0
    let rule := exc.ruleName.getD "Unknown Exception".data
    let dur : ℚ := match exc.durationS with
      | some d => d
      | none => ((e - s : ℤ) : ℚ)
    let isSpeeding := containsSub "speeding".data (pyLower rule)
    let maxKph : ℚ :=
      if isSpeeding then
        parsedLogs.foldl (fun m l => if s ≤ l.dt ∧ l.dt ≤ e then max m l.speed_kph else m) (-1)
      else -1
    let details0 := "Type: ".data ++ rule ++ "<br>Duration: ".data ++
      formatFixed1 dur ++ " sec".data
    let details :=
      if isSpeeding ∧ 0 ≤ maxKph then
        details0 ++ "<br>Maximum Speed: ".data ++
          intToStr (roundHE (maxKph * mphFactor)) ++ " MPH".data
      else details0
    some ⟨s, e, rule, details⟩
  | _, _ => none

/-- Embeds the priority assignment of lines 721-724: `speeding` 2, `idling` or
`idle` 0, anything else 1 (all matched case-insensitively on the rule name). -/
def prio (e : PExc) : ℤ :=
  if containsSub "speeding".data (pyLower e.type) then 2
  else if containsSub "idling".data (pyLower e.type) || containsSub "idle".data (pyLower e.type)
    then 0
  else 1

/-- Window-membership test of line 718: `exc['start'] <= log_dt <= exc['end']`. -/
def inWin (e : PExc) (t : ℤ) : Prop := e.start ≤ t ∧ t ≤ e.endT

instance (e : PExc) (t : ℤ) : Decidable (inWin e t) := by
  unfold inWin; infer_instance

/-- One step of the matching loop of lines 714-731: a containing window
replaces the current match exactly when its priority is strictly higher
(or there is no current match). -/
def selStep (t : ℤ) (acc : Option PExc) (e : PExc) : Option PExc :=
  if inWin e t then
    match acc with
    | none => some e
    | some cur => if prio e > prio cur then some e else acc
  else acc

/-- Embeds the matching loop of lines 714-731: scan all processed exceptions,
keeping the current match unless a strictly higher-priority containing window
appears. -/
def selectExc (pexcs : List PExc) (t : ℤ) : Option PExc :=
  pexcs.foldl (selStep t) none

/-- Writes the two exception properties of a feature (lines 711-712/736-737). -/
def setExcProps (f : Feature) (ty det : Str) : Feature :=
  { f with excType := some ty, excDetails := some det }

/-- Annotates one feature whose timestamp parsed to `t` (lines 714-738):
inside no window the sentinel pair `--` stays; otherwise the selected
exception's type and details are written. -/
def annotateAt (pexcs : List PExc) (f : Feature) (t : ℤ) : Feature :=
  match selectExc pexcs t with
  | none => setExcProps f "--".data "--".data
  | some e => setExcProps f e.type e.details

/-- Net per-feature effect of the annotation pass (lines 704-750): a feature
with an unparseable timestamp keeps the sentinel `--` pair (final loop,
lines 747-750); one with a parsed timestamp is annotated by the matching
loop. -/
def annotateOne (pexcs : List PExc) (f : Feature) : Feature :=
  match f.dtParsed with
  | none => setExcProps f "--".data "--".data
  | some t => annotateAt pexcs f t

/-- Embeds `annotate_log_records_with_exceptions` (lines 588-754).  The Python
function mutates and returns the log-record list and only reads the raw
exception list; the embedding threads both through explicitly and returns the
pair (result list, raw exception list as left after the call). -/
def annotate_log_records_with_exceptions (logs : List Feature) (excs : List RawExc) :
    List Feature × List RawExc :=
  if logs.isEmpty then ([], excs)
  else if excs.isEmpty then
    (logs.map (fun f => setExcProps f "--".data "--".data), excs)
  else
    let parsedLogs := parseLogs logs
    if parsedLogs.isEmpty then
      (logs.map (fun f => setExcProps f "--".data "--".data), excs)
    else
      let pexcs := excs.filterMap (processExc parsedLogs)
      if pexcs.isEmpty then
        (logs.map (fun f => setExcProps f "--".data "--".data), excs)
      else
        (logs.map (annotateOne pexcs), excs)

/- ### Theorems for C10 -/

/-- Strips the two annotator-owned properties, to state that the annotator
changes nothing else on a feature. -/
def eraseExcProps (f : Feature) : Feature := { f with excType := none, excDetails := none }

theorem eraseExcProps_annotateOne (pexcs : List PExc) (f : Feature) :
    eraseExcProps (annotateOne pexcs f) = eraseExcProps f := by
  cases hdt : f.dtParsed with
  | none => simp only [annotateOne, hdt]; rfl
  | some t =>
    cases hs : selectExc pexcs t with
    | none => simp only [annotateOne, annotateAt, hdt, hs]; rfl
    | some e => simp only [annotateOne, annotateAt, hdt, hs]; rfl

theorem map_erase_of_pointwise (g : Feature → Feature)
    (hg : ∀ f, eraseExcProps (g f) = eraseExcProps f) (logs : List Feature) :
    (logs.map g).map eraseExcProps = logs.map eraseExcProps := by
  rw [List.map_map]
  exact List.map_congr_left (fun f _ => hg f)

/-- C10. The annotator is a pure transformation: it returns the raw exception
list untouched, and the only change it makes to the log features is writing
the two exception properties — erasing those from its output gives back the
input features exactly. -/
theorem annotate_frame (logs : List Feature) (excs : List RawExc) :
    (annotate_log_records_with_exceptions logs excs).2 = excs ∧
    (annotate_log_records_with_exceptions logs excs).1.map eraseExcProps =
      logs.map eraseExcProps := by
  unfold annotate_log_records_with_exceptions
  by_cases h1 : logs.isEmpty
  · simp [h1, List.isEmpty_iff.mp h1]
  · by_cases h2 : excs.isEmpty
    · simp only [h1, h2, Bool.false_eq_true, if_false, if_true]
      exact ⟨by trivial, map_erase_of_pointwise (fun f => setExcProps f "--".data "--".data) (fun f => rfl) logs⟩
    · simp only [h1, h2, Bool.false_eq_true, if_false]
      by_cases h3 : (parseLogs logs).isEmpty
      · simp only [h3, if_true]
        exact ⟨by trivial, map_erase_of_pointwise (fun f => setExcProps f "--".data "--".data) (fun f => rfl) logs⟩
      · simp only [h3, Bool.false_eq_true, if_false]
        by_cases h4 : (excs.filterMap (processExc (parseLogs logs))).isEmpty
        · simp only [h4, if_true]
          exact ⟨by trivial, map_erase_of_pointwise (fun f => setExcProps f "--".data "--".data) (fun f => rfl) logs⟩
        · simp only [h4, Bool.false_eq_true, if_false]
          exact ⟨by trivial, map_erase_of_pointwise _ (eraseExcProps_annotateOne _) logs⟩

/- ### Theorems for C6 -/

theorem selStep_fold_spec (t : ℤ) (l : List PExc) :
    ∀ acc : Option PExc,
      (l.foldl (selStep t) acc = none ↔ acc = none ∧ ∀ e ∈ l, ¬ inWin e t) ∧
      (∀ e', l.foldl (selStep t) acc = some e' →
        (acc = some e' ∨ (e' ∈ l ∧ inWin e' t)) ∧
        (∀ e ∈ l, inWin e t → prio e ≤ prio e') ∧
        (∀ cur, acc = some cur → prio cur ≤ prio e')) := by
  induction l with
  | nil =>
    intro acc
    refine ⟨⟨fun h => ⟨h, by simp⟩, fun h => h.1⟩, fun e' h => ?_⟩
    have h' : acc = some e' := h
    refine ⟨Or.inl h', by simp, fun cur hc => ?_⟩
    rw [h'] at hc
    cases hc
    exact le_refl _
  | cons a as ih =>
    intro acc
    rw [List.foldl_cons]
    have step_none : selStep t acc a = none ↔ acc = none ∧ ¬ inWin a t := by
      unfold selStep
      by_cases hw : inWin a t
      · cases acc with
        | none => simp [hw]
        | some cur => by_cases hp : prio a > prio cur <;> simp [hw, hp]
      · simp [hw]
    constructor
    · rw [(ih (selStep t acc a)).1, step_none]
      constructor
      · rintro ⟨⟨hacc, hwa⟩, hall⟩
        refine ⟨hacc, ?_⟩
        intro e he
        rcases List.mem_cons.mp he with rfl | hmem
        · exact hwa
        · exact hall e hmem
      · rintro ⟨hacc, hall⟩
        exact ⟨⟨hacc, hall a (List.mem_cons_self a as)⟩,
          fun e he => hall e (List.mem_cons.mpr (Or.inr he))⟩
    · intro e' hfold
      obtain ⟨hsrc, hmax, hacc⟩ := (ih (selStep t acc a)).2 e' hfold
      have step_le : ∀ cur, acc = some cur → prio cur ≤ prio e' := by
        intro cur hc
        by_cases hw : inWin a t
        · by_cases hp : prio a > prio cur
          · have hstep : selStep t acc a = some a := by
              unfold selStep; rw [hc]; simp [hw, hp]
            have := hacc a hstep
            omega
          · have hstep : selStep t acc a = some cur := by
              unfold selStep; rw [hc]; simp [hw, hp]
            exact hacc cur hstep
        · have hstep : selStep t acc a = some cur := by
            unfold selStep; rw [hc]; simp [hw]
          exact hacc cur hstep
      have step_a : inWin a t → prio a ≤ prio e' := by
        intro hw
        cases hacc0 : acc with
        | none =>
          have hstep : selStep t acc a = some a := by
            unfold selStep; rw [hacc0]; simp [hw]
          exact hacc a hstep
        | some cur =>
          by_cases hp : prio a > prio cur
          · have hstep : selStep t acc a = some a := by
              unfold selStep; rw [hacc0]; simp [hw, hp]
            exact hacc a hstep
          · have hstep : selStep t acc a = some cur := by
              unfold selStep; rw [hacc0]; simp [hw, hp]
            have := hacc cur hstep
            omega
      refine ⟨?_, ?_, step_le⟩
      · rcases hsrc with hstep | ⟨hmem, hwin⟩
        · by_cases hw : inWin a t
          · cases hacc0 : acc with
            | none =>
              rw [hacc0] at hstep
              unfold selStep at hstep
              simp only [hw, if_true, Option.some.injEq] at hstep
              refine Or.inr ⟨?_, ?_⟩
              · rw [← hstep]; exact List.mem_cons_self a as
              · rw [← hstep]; exact hw
            | some cur =>
              rw [hacc0] at hstep
              unfold selStep at hstep
              simp only [hw, if_true] at hstep
              by_cases hp : prio a > prio cur
              · rw [if_pos hp] at hstep
                cases hstep
                exact Or.inr ⟨List.mem_cons_self a as, hw⟩
              · rw [if_neg hp] at hstep
                exact Or.inl hstep
          · unfold selStep at hstep
            simp only [hw, if_false] at hstep
            exact Or.inl hstep
        · exact Or.inr ⟨List.mem_cons.mpr (Or.inr hmem), hwin⟩
      · intro e he hw
        rcases List.mem_cons.mp he with rfl | hmem
        · exact step_a hw
        · exact hmax e hmem hw

theorem selectExc_eq_none_iff (pexcs : List PExc) (t : ℤ) :
    selectExc pexcs t = none ↔ ∀ e ∈ pexcs, ¬ inWin e t := by
  unfold selectExc
  rw [(selStep_fold_spec t pexcs none).1]
  simp

theorem selectExc_some_spec (pexcs : List PExc) (t : ℤ) (e' : PExc)
    (h : selectExc pexcs t = some e') :
    e' ∈ pexcs ∧ inWin e' t ∧ ∀ e ∈ pexcs, inWin e t → prio e ≤ prio e' := by
  obtain ⟨hsrc, hmax, _⟩ := (selStep_fold_spec t pexcs none).2 e' h
  rcases hsrc with hbad | ⟨hmem, hwin⟩
  · cases hbad
  · exact ⟨hmem, hwin, hmax⟩

theorem prio_eq_two_speeding (e : PExc) (h : 2 ≤ prio e) :
    containsSub "speeding".data (pyLower e.type) = true := by
  unfold prio at h
  by_cases h1 : containsSub "speeding".data (pyLower e.type)
  · exact h1
  · rw [if_neg h1] at h
    split_ifs at h <;> omega

/-- C6. A log point with parsed time `t` inside no processed exception window
keeps the sentinel pair `--`/`--`; a point inside at least one window is
annotated with exactly a containing window of maximal priority under the order
speeding (2) > other (1) > idling (0); in particular, when some containing
window has speeding priority, the window whose type and details are written is
a speeding one. -/
theorem exception_priority_spec (pexcs : List PExc) (t : ℤ) (f : Feature)
    (hf : f.dtParsed = some t) :
    ((∀ e ∈ pexcs, ¬ inWin e t) →
      annotateOne pexcs f = setExcProps f "--".data "--".data) ∧
    (∀ e0 ∈ pexcs, inWin e0 t →
      ∃ e', selectExc pexcs t = some e' ∧ e' ∈ pexcs ∧ inWin e' t ∧
        (∀ e ∈ pexcs, inWin e t → prio e ≤ prio e') ∧
        annotateOne pexcs f = setExcProps f e'.type e'.details) ∧
    (∀ e', selectExc pexcs t = some e' →
      (∃ e0 ∈ pexcs, inWin e0 t ∧ prio e0 = 2) →
      containsSub "speeding".data (pyLower e'.type) = true) := by
  refine ⟨?_, ?_, ?_⟩
  · intro hnone
    simp only [annotateOne, annotateAt, hf, (selectExc_eq_none_iff pexcs t).mpr hnone]
  · intro e0 h0 hw0
    cases hs : selectExc pexcs t with
    | none => exact absurd ((selectExc_eq_none_iff pexcs t).mp hs e0 h0) (by simpa using hw0)
    | some e' =>
      obtain ⟨hmem, hwin, hmax⟩ := selectExc_some_spec pexcs t e' hs
      refine ⟨e', rfl, hmem, hwin, hmax, ?_⟩
      simp only [annotateOne, annotateAt, hf, hs]
  · rintro e' hs ⟨e0, h0, hw0, hp0⟩
    obtain ⟨_, _, hmax⟩ := selectExc_some_spec pexcs t e' hs
    exact prio_eq_two_speeding e' (by have := hmax e0 h0 hw0; omega)

/-- Concrete idling window for the C6 witness. -/
def idleWin : PExc := ⟨0, 100, "Idling".data, "Type: Idling<br>Duration: 100.0 sec".data⟩

/-- Concrete speeding window for the C6 witness. -/
def speedWin : PExc := ⟨40, 60, "Speeding".data, "Type: Speeding<br>Duration: 20.0 sec".data⟩

/-- Concrete trace point (time 50, inside both windows) for the C6 witness. -/
def ptFeature : Feature := ⟨-739/10, 407/10, some 50, some 30, none, none, []⟩

/-- Witness for C6: the point at time 50 lies inside both the idling and the
speeding window and is tagged as the speeding one. -/
theorem exception_priority_witness :
    (annotateOne [idleWin, speedWin] ptFeature).excType = some "Speeding".data ∧
    (∃ e', selectExc [idleWin, speedWin] 50 = some e' ∧
      e' ∈ [idleWin, speedWin] ∧ inWin e' 50 ∧
      (∀ e ∈ [idleWin, speedWin], inWin e 50 → prio e ≤ prio e') ∧
      annotateOne [idleWin, speedWin] ptFeature = setExcProps ptFeature e'.type e'.details) :=
  ⟨by decide,
    (exception_priority_spec [idleWin, speedWin] 50 ptFeature rfl).2.1 idleWin
      (by decide) (by decide)⟩

/- ### Theorems for C7 -/

/-- Specification-side maximum: the largest speed among exactly the parsed
logs whose timestamp lies within `[s, e]` inclusive (0 when none do). -/
def specMaxInWindow (parsedLogs : List PLog) (s e : ℤ) : ℚ :=
  ((parsedLogs.filter (fun l => decide (s ≤ l.dt) && decide (l.dt ≤ e))).map
    (fun l => l.speed_kph)).foldl max 0

theorem foldl_cond_eq_filter_foldl (s e : ℤ) (logs : List PLog) :
    ∀ b : ℚ,
      logs.foldl (fun m l => if s ≤ l.dt ∧ l.dt ≤ e then max m l.speed_kph else m) b =
      ((logs.filter (fun l => decide (s ≤ l.dt) && decide (l.dt ≤ e))).map
        (fun l => l.speed_kph)).foldl max b := by
  induction logs with
  | nil => intro b; rfl
  | cons a as ih =>
    intro b
    by_cases h : s ≤ a.dt ∧ a.dt ≤ e
    · rw [List.foldl_cons, if_pos h,
        List.filter_cons_of_pos (by simp [h.1, h.2]), List.map_cons, List.foldl_cons, ih]
    · rw [List.foldl_cons, if_neg h,
        List.filter_cons_of_neg (by simpa using h), ih]

theorem foldl_max_le_foldl_max (l : List ℚ) :
    ∀ a b : ℚ, a ≤ b → l.foldl max a ≤ l.foldl max b := by
  induction l with
  | nil => intro a b h; exact h
  | cons x xs ih =>
    intro a b h
    exact ih _ _ (max_le_max_right x h)

theorem le_foldl_max (l : List ℚ) : ∀ b : ℚ, b ≤ l.foldl max b := by
  induction l with
  | nil => intro b; exact le_refl b
  | cons x xs ih =>
    intro b
    exact le_trans (le_max_left b x) (ih (max b x))

theorem mem_le_foldl_max (l : List ℚ) (x : ℚ) (hx : x ∈ l) :
    ∀ b : ℚ, x ≤ l.foldl max b := by
  induction l with
  | nil => cases hx
  | cons y ys ih =>
    intro b
    rcases List.mem_cons.mp hx with rfl | hmem
    · exact le_trans (le_max_right b x) (le_foldl_max ys (max b x))
    · exact ih hmem (max b y)

theorem foldl_max_base_change (l : List ℚ) (hne : l ≠ [])
    (hpos : ∀ x ∈ l, 0 ≤ x) : l.foldl max (-1) = l.foldl max 0 := by
  cases l with
  | nil => exact absurd rfl hne
  | cons x xs =>
    have hx : (0 : ℚ) ≤ x := hpos x (List.mem_cons_self x xs)
    rw [List.foldl_cons, List.foldl_cons, max_eq_right (by linarith), max_eq_right hx]

/-- C7. For an exception whose rule name contains `speeding`
(case-insensitively), with parseable start/end `s0 ≤ e0`, at least one parsed
log inside `[s0, e0]` and nonnegative speeds, the processed exception keeps the
window `[s0, e0]` and its details string ends with the maximum-speed clause,
where the reported value is the rounded mph conversion of the maximum speed
over exactly the logs inside the window — logs outside it are excluded. -/
theorem speeding_max_speed_spec (parsedLogs : List PLog) (exc : RawExc) (s0 e0 : ℤ)
    (hs : exc.startRaw = some s0) (he : exc.endRaw = some e0) (hse : s0 ≤ e0)
    (hspd : containsSub "speeding".data
      (pyLower (exc.ruleName.getD "Unknown Exception".data)) = true)
    (hin : ∃ l, l ∈ parsedLogs ∧ (s0 ≤ l.dt ∧ l.dt ≤ e0))
    (hpos : ∀ l ∈ parsedLogs, 0 ≤ l.speed_kph) :
    processExc parsedLogs exc = some
      { start := s0, endT := e0
        type := exc.ruleName.getD "Unknown Exception".data
        details :=
          "Type: ".data ++ exc.ruleName.getD "Unknown Exception".data ++
          "<br>Duration: ".data ++
          formatFixed1 (match exc.durationS with
            | some d => d
            | none => ((e0 - s0 : ℤ) : ℚ)) ++ " sec".data ++
          "<br>Maximum Speed: ".data ++
          intToStr (roundHE (specMaxInWindow parsedLogs s0 e0 * mphFactor)) ++
          " MPH".data } := by
  have hnotlt : ¬ (s0 > e0) := not_lt.mpr hse
  obtain ⟨l0, hl0mem, hl0win⟩ := hin
  have hl0filt : l0 ∈ parsedLogs.filter (fun l => decide (s0 ≤ l.dt) && decide (l.dt ≤ e0)) :=
    List.mem_filter.mpr ⟨hl0mem, by simp [hl0win.1, hl0win.2]⟩
  have hspeedmem : l0.speed_kph ∈
      (parsedLogs.filter (fun l => decide (s0 ≤ l.dt) && decide (l.dt ≤ e0))).map
        (fun l => l.speed_kph) :=
    List.mem_map.mpr ⟨l0, hl0filt, rfl⟩
  have hne : (parsedLogs.filter (fun l => decide (s0 ≤ l.dt) && decide (l.dt ≤ e0))).map
      (fun l => l.speed_kph) ≠ [] :=
    List.ne_nil_of_mem hspeedmem
  have hposall : ∀ x ∈ (parsedLogs.filter
      (fun l => decide (s0 ≤ l.dt) && decide (l.dt ≤ e0))).map (fun l => l.speed_kph),
      (0 : ℚ) ≤ x := by
    intro x hxmem
    obtain ⟨l, hl, rfl⟩ := List.mem_map.mp hxmem
    exact hpos l (List.mem_of_mem_filter hl)
  have key : parsedLogs.foldl
      (fun m l => if s0 ≤ l.dt ∧ l.dt ≤ e0 then max m l.speed_kph else m) (-1) =
      specMaxInWindow parsedLogs s0 e0 := by
    rw [foldl_cond_eq_filter_foldl, specMaxInWindow, foldl_max_base_change _ hne hposall]
  have hposmax : (0 : ℚ) ≤ specMaxInWindow parsedLogs s0 e0 := by
    rw [specMaxInWindow, ← foldl_max_base_change _ hne hposall]
    exact le_trans (hpos l0 hl0mem) (mem_le_foldl_max _ _ hspeedmem (-1))
  simp only [processExc, hs, he, hnotlt, if_false, hspd, if_true, key, hposmax, and_self,
    Option.some.injEq]

/-- Concrete parsed logs for the C7 witness: speeds 40, 72, 55 kph at times
inside the window `[60, 300]` and 90 kph outside it. -/
def spdLogs : List PLog := [⟨100, 40⟩, ⟨200, 72⟩, ⟨250, 55⟩, ⟨400, 90⟩]

/-- Concrete speeding exception for the C7 witness. -/
def spdExc : RawExc := ⟨some "Speeding".data, some 60, some 300, some 240⟩

/-- Witness for C7: the reported maximum speed is 45 mph — the conversion of
72 kph, the fastest point inside the window — not of the 90 kph point
outside it. -/
theorem speeding_max_speed_witness :
    processExc spdLogs spdExc = some ⟨60, 300, "Speeding".data,
      "Type: Speeding<br>Duration: 240.0 sec<br>Maximum Speed: 45 MPH".data⟩ := by
  have h := speeding_max_speed_spec spdLogs spdExc 60 300 rfl rfl (by decide) (by decide)
    ⟨⟨100, 40⟩, by decide⟩ (by decide)
  rw [h]
  have hmax : specMaxInWindow spdLogs 60 300 = 72 := by decide
  rw [hmax]
  have hmul : (72 : ℚ) * mphFactor = mkRat 5592339 125000 := by
    rw [Rat.mkRat_eq_div]
    norm_num [mphFactor]
  rw [hmul]
  decide

/- ### C9: GPS trace formatter totality

Embeds `processing.py`, `format_gps_trace` (lines 89-160).  A raw telemetry
row carries the parse results of the per-point reads the loop performs:
`float(row['latitude'])` and `float(row['longitude'])` (where `none` stands
for the ValueError/TypeError/KeyError the `except` clause catches, causing the
row to be skipped), `parse_timestamp(row['dateTime'])` (a `none` result skips
the row), and `row.get('speed', 0)` (where `none` stands for a missing key,
defaulted to `0`). -/

/-- One raw telemetry row, as read by `format_gps_trace`. -/
structure GpsRow where
  latitude : Option ℚ
  longitude : Option ℚ
  dtParsed : Option ℤ
  speed : Option ℚ
deriving DecidableEq

/-- One emitted GeoJSON point feature: `[lon, lat]` coordinates, the parsed
instant (rendered by `isoformat` in the source), and the speed property. -/
structure GpsFeature where
  coords : ℚ × ℚ
  dt : ℤ
  speed : ℚ
deriving DecidableEq

/-- Embeds the per-row loop of `format_gps_trace` lines 119-156: parse
latitude and longitude (a failure is caught and skips the row), parse the
timestamp (a `none` skips the row), then emit the feature. -/
def format_gps_trace (rows : List GpsRow) : List GpsFeature :=
  rows.filterMap fun r =>
    match r.latitude, r.longitude with
    | some la, some lo => r.dtParsed.map fun dt => ⟨(lo, la), dt, r.speed.getD 0⟩
    | _, _ => none

/-- A row is well-formed when latitude, longitude and timestamp all parse. -/
def gpsWellFormed (r : GpsRow) : Bool :=
  r.latitude.isSome && r.longitude.isSome && r.dtParsed.isSome

/-- The feature a well-formed row produces. -/
def mkGpsFeature (r : GpsRow) : GpsFeature :=
  ⟨(r.longitude.getD 0, r.latitude.getD 0), r.dtParsed.getD 0, r.speed.getD 0⟩

theorem format_gps_trace_eq_filter (rows : List GpsRow) :
    format_gps_trace rows = (rows.filter gpsWellFormed).map mkGpsFeature := by
  induction rows with
  | nil => rfl
  | cons r rs ih =>
    unfold format_gps_trace at ih ⊢
    rw [List.filterMap_cons]
    cases hla : r.latitude with
    | none =>
      have : gpsWellFormed r = false := by simp [gpsWellFormed, hla]
      rw [List.filter_cons_of_neg (by simp [this])]
      simpa [hla] using ih
    | some la =>
      cases hlo : r.longitude with
      | none =>
        have : gpsWellFormed r = false := by simp [gpsWellFormed, hlo]
        rw [List.filter_cons_of_neg (by simp [this])]
        simpa [hla, hlo] using ih
      | some lo =>
        cases hdt : r.dtParsed with
        | none =>
          have : gpsWellFormed r = false := by simp [gpsWellFormed, hdt]
          rw [List.filter_cons_of_neg (by simp [this])]
          simpa [hla, hlo, hdt] using ih
        | some dt =>
          have hwf : gpsWellFormed r = true := by simp [gpsWellFormed, hla, hlo, hdt]
          rw [List.filter_cons_of_pos hwf, List.map_cons]
          simp only [hla, hlo, hdt, Option.map_some]
          rw [ih]
          have : mkGpsFeature r = ⟨(lo, la), dt, r.speed.getD 0⟩ := by
            simp [mkGpsFeature, hla, hlo, hdt]
          rw [this]
          rfl

theorem countP_not_add_countP (p : GpsRow → Bool) (l : List GpsRow) :
    l.countP (fun r => !p r) + l.countP p = l.length := by
  induction l with
  | nil => rfl
  | cons a as ih =>
    by_cases h : p a = true
    · rw [List.countP_cons_of_pos p _ h, List.countP_cons_of_neg _ _ (by simp [h]),
        List.length_cons, ← ih]
      omega
    · rw [List.countP_cons_of_neg p _ h, List.countP_cons_of_pos _ _ (by simp [h]),
        List.length_cons, ← ih]
      omega

/-- C9. The GPS trace formatter is total over arbitrary per-point data: it
equals mapping the feature constructor over exactly the well-formed rows (so
each malformed row is skipped and every remaining row is emitted, in order),
and a batch of 10 rows of which 2 are malformed yields exactly 8 features. -/
theorem trace_malformed_tolerance (rows : List GpsRow)
    (h10 : rows.length = 10) (h2 : rows.countP (fun r => !gpsWellFormed r) = 2) :
    (∀ rows' : List GpsRow,
      format_gps_trace rows' = (rows'.filter gpsWellFormed).map mkGpsFeature) ∧
    (format_gps_trace rows).length = 8 := by
  refine ⟨format_gps_trace_eq_filter, ?_⟩
  rw [format_gps_trace_eq_filter, List.length_map, ← List.countP_eq_length_filter]
  have := countP_not_add_countP gpsWellFormed rows
  omega

/-- Concrete batch of 10 telemetry rows for the C9 witness: rows 2 and 7 have
a non-numeric latitude. -/
def gpsBatch : List GpsRow :=
  [⟨some 1, some 2, some 10, some 5⟩,
   ⟨some 1, some 2, some 11, some 5⟩,
   ⟨none, some 2, some 12, some 5⟩,
   ⟨some 1, some 2, some 13, none⟩,
   ⟨some 1, some 2, some 14, some 5⟩,
   ⟨some 1, some 2, some 15, some 5⟩,
   ⟨some 1, some 2, some 16, some 5⟩,
   ⟨none, some 2, some 17, some 5⟩,
   ⟨some 1, some 2, some 18, some 5⟩,
   ⟨some 1, some 2, some 19, some 5⟩]

/-- Witness for C9: the 10-row batch with 2 bad latitudes yields exactly 8
features. -/
theorem trace_malformed_tolerance_witness :
    gpsBatch.length = 10 ∧ (format_gps_trace gpsBatch).length = 8 :=
  ⟨by decide, (trace_malformed_tolerance gpsBatch (by decide) (by decide)).2⟩

/- ### C2: historical-source date matching

Embeds the date-filtering logic of `data_sources.py`,
`_get_ras_data_from_sheet` lines 108-149 (the string-valued
`date_filter_value` branch), and the historical branch of `app.py`,
`get_vehicles_from_preloaded_ras` lines 196-227.  The pandas parser
`pd.to_datetime(...)` is a parameter `pdt` returning the parsed calendar date
(an ordinal) and time of day, or `none` for the coerced-NaT / raised-error
case; matched rows are reported by index. -/

/-- Model of `s.split(c, 1)`: the part before the first occurrence of `c`, and
the part after it when `c` occurs. -/
def splitFirst (c : Char) : Str → Str × Option Str
  | [] => ([], none)
  | a :: as =>
    if a = c then ([], some as)
    else
      let r := splitFirst c as
      (a :: r.1, r.2)

/-- ASCII letter test. -/
def isAlphaCh (c : Char) : Bool :=
  (65 ≤ c.toNat && c.toNat ≤ 90) || (97 ≤ c.toNat && c.toNat ≤ 122)

/-- Model of `re.match(r'^[A-Za-z]+-\d{1,2}$', s)` (`data_sources.py` line
119): letters, a dash, then one or two digits. -/
def matchesWeekdayDay (s : Str) : Bool :=
  match splitFirst '-' s with
  | (pre, some post) =>
    !pre.isEmpty && pre.all isAlphaCh && !post.isEmpty &&
      decide (post.length ≤ 2) && post.all isDig
  | (_, none) => false

/-- Indices of the column entries satisfying `p`, counting from `i`. -/
def filterIdxFrom (p : Str → Bool) : ℕ → List Str → List ℕ
  | _, [] => []
  | i, v :: vs => if p v then i :: filterIdxFrom p (i + 1) vs else filterIdxFrom p (i + 1) vs

/-- Indices of the column entries satisfying `p` (DataFrame row selection). -/
def filterIdx (p : Str → Bool) (col : List Str) : List ℕ := filterIdxFrom p 0 col

/-- Embeds the sheet-helper date filter (`data_sources.py` lines 116-138) on a
string `date_filter_value`: strip it; a `Weekday-Day` shaped value is
string-matched directly; otherwise parse it (`errors='raise'`, whose failure
is the `except` fallback to direct string comparison on the stripped column)
and, when the parsed column has any usable date, match rows whose parsed
calendar date equals the target's, else select nothing. -/
def hist_date_filter (pdt : Str → Option (ℤ × ℚ)) (col : List Str) (dfv : Str) : List ℕ :=
  let s := pyStrip dfv
  if matchesWeekdayDay s then filterIdx (fun v => pyStrip v == s) col
  else
    match pdt s with
    | some d1 =>
      if (col.map pdt).all Option.isNone then []
      else
        filterIdx (fun v => match pdt v with
          | some d2 => d2.1 == d1.1
          | none => false) col
    | none => filterIdx (fun v => pyStrip v == s) col

/-- Embeds the historical branch of `app.py` lines 196-227: parse the column
(`errors='coerce'`), drop unparseable rows, and when nothing parseable is left
select nothing, else match rows whose parsed calendar date equals the target
date. -/
def app_hist_date_filter (pdt : Str → Option (ℤ × ℚ)) (col : List Str) (target : ℤ) :
    List ℕ :=
  if (col.map pdt).all Option.isNone then []
  else
    filterIdx (fun v => match pdt v with
      | some d2 => d2.1 == target
      | none => false) col

/-- Modelled from the spec (claim C2): (1) when the column parses as dates,
match by calendar-date equality against the target date; (2) when parsing the
column yields no usable dates, fall back to direct string equality between the
trimmed raw column value and the target string (the target date formatted as
`MM/DD/YYYY`). -/
def c2_spec_filter (pdt : Str → Option (ℤ × ℚ)) (col : List Str) (target : ℤ)
    (targetStr : Str) : List ℕ :=
  if (col.map pdt).all Option.isNone then
    filterIdx (fun v => pyStrip v == targetStr) col
  else
    filterIdx (fun v => match pdt v with
      | some d2 => d2.1 == target
      | none => false) col

theorem filterIdxFrom_eq_nil (p : Str → Bool) (col : List Str)
    (h : ∀ v ∈ col, p v = false) : ∀ i, filterIdxFrom p i col = [] := by
  induction col with
  | nil => intro i; rfl
  | cons v vs ih =>
    intro i
    unfold filterIdxFrom
    rw [h v (List.mem_cons_self v vs)]
    exact (ih (fun x hx => h x (List.mem_cons.mpr (Or.inr hx))) (i + 1))

/-- C2. For a historical lookup whose target string is trimmed, not of the
`Weekday-Day` shape, and parses to the calendar date `d` (as every
`MM/DD/YYYY`-formatted target does), both the sheet-helper filter and the
preloaded-RAS filter select exactly the rows the claimed strategy selects:
calendar-date matches when the column has usable dates, and the trimmed-string
fallback (which is empty, since a value trimming to a parseable string
parses) when it has none. -/
theorem hist_date_match_spec (pdt : Str → Option (ℤ × ℚ)) (col : List Str) (input : Str)
    (d : ℤ) (tq : ℚ)
    (htrim : pyStrip input = input)
    (hwd : matchesWeekdayDay input = false)
    (hparse : pdt input = some (d, tq))
    (hsane : ∀ v ∈ col, pyStrip v = input → (pdt v).isSome = true) :
    hist_date_filter pdt col input = c2_spec_filter pdt col d input ∧
    app_hist_date_filter pdt col d = c2_spec_filter pdt col d input := by
  have hfallback : ∀ hall : (col.map pdt).all Option.isNone = true,
      filterIdx (fun v => pyStrip v == input) col = [] := by
    intro hall
    apply filterIdxFrom_eq_nil
    intro v hv
    by_cases heq : pyStrip v = input
    · exfalso
      have hsome := hsane v hv heq
      have hnone : (pdt v).isNone = true :=
        List.all_eq_true.mp hall (pdt v) (List.mem_map.mpr ⟨v, hv, rfl⟩)
      rw [Option.isNone_iff_eq_none.mp hnone] at hsome
      exact absurd hsome (by decide)
    · simp [heq]
  constructor
  · unfold hist_date_filter c2_spec_filter
    simp only [htrim, hwd, hparse, Bool.false_eq_true, if_false]
    by_cases hall : (col.map pdt).all Option.isNone = true
    · rw [if_pos hall, if_pos hall, hfallback hall]
    · rw [if_neg hall, if_neg hall]
  · unfold app_hist_date_filter c2_spec_filter
    by_cases hall : (col.map pdt).all Option.isNone = true
    · rw [if_pos hall, if_pos hall, hfallback hall]
    · rw [if_neg hall, if_neg hall]

/-- Concrete pandas-parser stub for the C2 witness. -/
def histPdt : Str → Option (ℤ × ℚ) := fun s =>
  if s = "05/13/2024".data then some (739019, 0)
  else if s = "2024-05-13 07:30:00".data then some (739019, 27000)
  else none

/-- Concrete historical date column for the C2 witness: one value parsing to
the same calendar date as the target (at a different time of day), one
garbage value. -/
def histCol : List Str := ["2024-05-13 07:30:00".data, "garbage".data]

/-- Witness for C2 at the target `05/13/2024`: the filters agree with the
claimed strategy and select exactly the first row. -/
theorem hist_date_match_witness :
    hist_date_filter histPdt histCol "05/13/2024".data =
      c2_spec_filter histPdt histCol 739019 "05/13/2024".data ∧
    hist_date_filter histPdt histCol "05/13/2024".data = [0] :=
  ⟨(hist_date_match_spec histPdt histCol "05/13/2024".data 739019 0
      (by decide) (by decide) (by decide) (by decide)).1,
    by decide⟩

/- ### C3: school-stop extraction keeps one entry per physical row

Embeds the school-stop portion of `processing.py`, `process_optdump`
(lines 341-500).  One `OptRow` carries the cells the pipeline reads; the
numeric fields are stored as the parse results of `pd.to_numeric` /
`pd.to_datetime` (`none` = unparseable or empty, causing the row to be
dropped); the DataFrame index is the row's position in the dump. -/

/-- One row of the optimization dump, as read by `process_optdump`. -/
structure OptRow where
  route : Str
  am_pm : Str
  address : Str
  school : Str
  pupilId : Str
  pupilLat : Option ℚ
  pupilLon : Option ℚ
  seq : Option ℤ
  sessBeg : Option ℤ
deriving DecidableEq

/-- DataFrame-style enumeration: pair each row with its index. -/
def enumRows : ℕ → List OptRow → List (ℕ × OptRow)
  | _, [] => []
  | i, r :: rs => (i, r) :: enumRows (i + 1) rs

/-- Model of `Series.str.contains(pat, case=False)` for the literal sentinel
patterns the pipeline uses. -/
def containsCI (s pat : Str) : Bool := containsSub (pyLower pat) (pyLower s)

/-- Lexicographic string comparison by code point (pandas sort order). -/
def strLe : Str → Str → Bool
  | [], _ => true
  | _ :: _, [] => false
  | a :: as, b :: bs =>
    if a.toNat < b.toNat then true
    else if b.toNat < a.toNat then false
    else strLe as bs

/-- Time-of-day comparison with missing values sorted last
(pandas `na_position='last'`). -/
def optTimeLe : Option ℤ → Option ℤ → Bool
  | some x, some y => decide (x ≤ y)
  | some _, none => true
  | none, some _ => false
  | none, none => true

/-- Sort key of `sort_values(by=['Route', 'Sequence', 'Pupil_Id_No'])`
(line 449). -/
def dedupLe (a b : ℕ × OptRow) : Bool :=
  if a.2.route = b.2.route then
    if a.2.seq.getD 0 = b.2.seq.getD 0 then strLe a.2.pupilId b.2.pupilId
    else decide (a.2.seq.getD 0 ≤ b.2.seq.getD 0)
  else strLe a.2.route b.2.route

/-- Sort key of `sort_values(by=['Route', 'Sess_Beg.'])` (line 485). -/
def schoolLe (a b : ℕ × OptRow) : Bool :=
  if a.2.route = b.2.route then optTimeLe a.2.sessBeg b.2.sessBeg
  else strLe a.2.route b.2.route

/-- Insertion into a sorted list (model of the pandas sort). -/
def insertSorted {α : Type} (le : α → α → Bool) (a : α) : List α → List α
  | [] => [a]
  | b :: bs => if le a b then a :: b :: bs else b :: insertSorted le a bs

/-- Insertion sort (model of the pandas sort). -/
def sortByB {α : Type} (le : α → α → Bool) : List α → List α
  | [] => []
  | a :: as => insertSorted le a (sortByB le as)

/-- Model of `drop_duplicates(subset=['Route', 'Pupil_Id_No',
'School_Code_&_Name'], keep="first")` (lines 449-451): keep the first row of
each key triple. -/
def dropDupsGo : List (Str × Str × Str) → List (ℕ × OptRow) → List (ℕ × OptRow)
  | _, [] => []
  | seen, x :: xs =>
    if (x.2.route, x.2.pupilId, x.2.school) ∈ seen then dropDupsGo seen xs
    else x :: dropDupsGo ((x.2.route, x.2.pupilId, x.2.school) :: seen) xs

/-- Association-list lookup (Python dict read). -/
def alookup {κ ν : Type} [DecidableEq κ] (k : κ) : List (κ × ν) → Option ν
  | [] => none
  | (k0, v) :: rest => if k0 = k then some v else alookup k rest

/-- Association-list write (Python dict assignment: replace or append). -/
def aInsert {κ ν : Type} [DecidableEq κ] (k : κ) (v : ν) : List (κ × ν) → List (κ × ν)
  | [] => [(k, v)]
  | (k0, v0) :: rest => if k0 = k then (k, v) :: rest else (k0, v0) :: aInsert k v rest

/-- Model of `school_coords_dict.setdefault(route, {})[unique_school_key] =
(lat, lon)` (line 493): the inner dictionary is keyed by the row-unique
DataFrame index. -/
def schoolInsert (route : Str) (k : ℕ) (v : ℚ × ℚ)
    (m : List (Str × List (ℕ × (ℚ × ℚ)))) : List (Str × List (ℕ × (ℚ × ℚ))) :=
  match alookup route m with
  | some inner => aInsert route (aInsert k v inner) m
  | none => aInsert route [(k, v)] m

/-- Session-exclusion marker of lines 366-369: AM processing drops `PM ONLY`
rows, PM processing drops `AM ONLY` rows. -/
def optSessionMarker (sessionAM : Bool) : Str :=
  if sessionAM then "PM ONLY".data else "AM ONLY".data

/-- Embeds the row-dropping stages of `process_optdump` (lines 360-432): the
session filter, the `SEE OPERATIONS` address filter, the `DISMISS` school
filter, the coordinate validation (empty or non-numeric latitude/longitude
drops the row) and the sequence validation (non-numeric `seg_no` drops the
row), on index-carrying rows. -/
def optFiltered (sessionAM : Bool) (optdump : List OptRow) : List (ℕ × OptRow) :=
  ((((enumRows 0 optdump).filter
      (fun x => !(pyUpper x.2.am_pm == optSessionMarker sessionAM))).filter
      (fun x => !containsCI x.2.address "SEE OPERATIONS".data)).filter
      (fun x => !containsCI x.2.school "DISMISS".data)).filter
      (fun x => x.2.pupilLat.isSome && x.2.pupilLon.isSome && x.2.seq.isSome)

/-- Embeds the sort-then-deduplicate step of lines 444-451. -/
def optDeduped (sessionAM : Bool) (optdump : List OptRow) : List (ℕ × OptRow) :=
  dropDupsGo [] (sortByB dedupLe (optFiltered sessionAM optdump))

/-- Embeds the school-stop dictionary construction of lines 483-500: the rows
with sequence 0, sorted by route and session-begin time, each inserted under
its row-unique index. -/
def process_optdump_schools (sessionAM : Bool) (optdump : List OptRow) :
    List (Str × List (ℕ × (ℚ × ℚ))) :=
  (sortByB schoolLe ((optDeduped sessionAM optdump).filter
      (fun x => x.2.seq == some (0 : ℤ)))).foldl
    (fun m x => schoolInsert x.2.route x.1 (x.2.pupilLat.getD 0, x.2.pupilLon.getD 0) m) []

/-- Reads one school stop of one route from the extraction output. -/
def schoolLookup (m : List (Str × List (ℕ × (ℚ × ℚ)))) (route : Str) (k : ℕ) :
    Option (ℚ × ℚ) :=
  match alookup route m with
  | some inner => alookup k inner
  | none => none

theorem sortByB_two {α : Type} (le : α → α → Bool) (x y : α) :
    sortByB le [x, y] = [x, y] ∨ sortByB le [x, y] = [y, x] := by
  by_cases h : le x y = true
  · left; simp [sortByB, insertSorted, h]
  · right; simp [sortByB, insertSorted, h]

theorem school_fold_two (r1 r2 : OptRow) (la1 lo1 la2 lo2 : ℚ)
    (hroute : r1.route = r2.route)
    (hc1 : r1.pupilLat = some la1) (hc1' : r1.pupilLon = some lo1)
    (hc2 : r2.pupilLat = some la2) (hc2' : r2.pupilLon = some lo2) :
    (schoolLookup ([(0, r1), (1, r2)].foldl
        (fun m x => schoolInsert x.2.route x.1 (x.2.pupilLat.getD 0, x.2.pupilLon.getD 0) m)
        []) r1.route 0 = some (la1, lo1) ∧
      schoolLookup ([(0, r1), (1, r2)].foldl
        (fun m x => schoolInsert x.2.route x.1 (x.2.pupilLat.getD 0, x.2.pupilLon.getD 0) m)
        []) r1.route 1 = some (la2, lo2)) ∧
    (schoolLookup ([(1, r2), (0, r1)].foldl
        (fun m x => schoolInsert x.2.route x.1 (x.2.pupilLat.getD 0, x.2.pupilLon.getD 0) m)
        []) r1.route 0 = some (la1, lo1) ∧
      schoolLookup ([(1, r2), (0, r1)].foldl
        (fun m x => schoolInsert x.2.route x.1 (x.2.pupilLat.getD 0, x.2.pupilLon.getD 0) m)
        []) r1.route 1 = some (la2, lo2)) := by
  simp [schoolLookup, schoolInsert, aInsert, alookup, ← hroute, hc1, hc1', hc2, hc2']

/-- C3. Two OPT rows of the same route, both with sequence 0, with different
school names, that pass the session/address/dismissal filters and have
parseable coordinates, are both retained by the school-stop extraction as
distinct school stops of that route, each under its own row-unique key (its
DataFrame index): neither overwrites the other. -/
theorem school_stops_distinct (sessionAM : Bool) (r1 r2 : OptRow)
    (la1 lo1 la2 lo2 : ℚ)
    (hroute : r1.route = r2.route)
    (hq1 : r1.seq = some 0) (hq2 : r2.seq = some 0)
    (hname : r1.school ≠ r2.school)
    (hs1 : (pyUpper r1.am_pm == optSessionMarker sessionAM) = false)
    (hs2 : (pyUpper r2.am_pm == optSessionMarker sessionAM) = false)
    (ha1 : containsCI r1.address "SEE OPERATIONS".data = false)
    (ha2 : containsCI r2.address "SEE OPERATIONS".data = false)
    (hd1 : containsCI r1.school "DISMISS".data = false)
    (hd2 : containsCI r2.school "DISMISS".data = false)
    (hc1 : r1.pupilLat = some la1) (hc1' : r1.pupilLon = some lo1)
    (hc2 : r2.pupilLat = some la2) (hc2' : r2.pupilLon = some lo2) :
    schoolLookup (process_optdump_schools sessionAM [r1, r2]) r1.route 0 = some (la1, lo1) ∧
    schoolLookup (process_optdump_schools sessionAM [r1, r2]) r1.route 1 = some (la2, lo2) := by
  have hkey : ¬ ((r1.route, r1.pupilId, r1.school) = (r2.route, r2.pupilId, r2.school)) := by
    intro h
    exact hname (congrArg (fun p => p.2.2) h)
  have hkey' : ¬ ((r2.route, r2.pupilId, r2.school) = (r1.route, r1.pupilId, r1.school)) :=
    fun h => hkey h.symm
  have h1 : optFiltered sessionAM [r1, r2] = [(0, r1), (1, r2)] := by
    simp [optFiltered, enumRows, hs1, hs2, ha1, ha2, hd1, hd2, hc1, hc1', hc2, hc2', hq1, hq2]
  unfold process_optdump_schools optDeduped
  rw [h1]
  rcases sortByB_two dedupLe (0, r1) (1, r2) with hs | hs <;> rw [hs]
  · have hdd : dropDupsGo [] [(0, r1), (1, r2)] = [(0, r1), (1, r2)] := by
      simp [dropDupsGo, hkey']
    rw [hdd]
    have hfil : [(0, r1), (1, r2)].filter (fun x => x.2.seq == some (0 : ℤ)) =
        [(0, r1), (1, r2)] := by
      simp [hq1, hq2]
    rw [hfil]
    rcases sortByB_two schoolLe (0, r1) (1, r2) with hs2s | hs2s <;> rw [hs2s]
    · exact (school_fold_two r1 r2 la1 lo1 la2 lo2 hroute hc1 hc1' hc2 hc2').1
    · exact (school_fold_two r1 r2 la1 lo1 la2 lo2 hroute hc1 hc1' hc2 hc2').2
  · have hdd : dropDupsGo [] [(1, r2), (0, r1)] = [(1, r2), (0, r1)] := by
      simp [dropDupsGo, hkey]
    rw [hdd]
    have hfil : [(1, r2), (0, r1)].filter (fun x => x.2.seq == some (0 : ℤ)) =
        [(1, r2), (0, r1)] := by
      simp [hq1, hq2]
    rw [hfil]
    rcases sortByB_two schoolLe (1, r2) (0, r1) with hs2s | hs2s <;> rw [hs2s]
    · exact (school_fold_two r1 r2 la1 lo1 la2 lo2 hroute hc1 hc1' hc2 hc2').2
    · exact (school_fold_two r1 r2 la1 lo1 la2 lo2 hroute hc1 hc1' hc2 hc2').1

/-- First concrete school row for the C3 witness. -/
def schoolRow1 : OptRow :=
  ⟨"B12".data, "BOTH".data, "1 MAIN ST".data, "X100 PS 1 ARRIVE".data, "".data,
    some (407 : ℚ), some (-739 : ℚ), some 0, some 28800⟩

/-- Second concrete school row for the C3 witness: same route, sequence 0,
different school name. -/
def schoolRow2 : OptRow :=
  ⟨"B12".data, "BOTH".data, "2 MAIN ST".data, "X200 PS 2 ARRIVE".data, "".data,
    some (408 : ℚ), some (-738 : ℚ), some 0, some 30600⟩

/-- Witness for C3: both sequence-0 rows of route `B12` survive as distinct
school stops under their own row keys. -/
theorem school_stops_distinct_witness :
    schoolLookup (process_optdump_schools true [schoolRow1, schoolRow2]) "B12".data 0 =
      some (407, -739) ∧
    schoolLookup (process_optdump_schools true [schoolRow1, schoolRow2]) "B12".data 1 =
      some (408, -738) :=
  by
  have h := school_stops_distinct true schoolRow1 schoolRow2 407 (-739) 408 (-738)
    (by decide) (by decide) (by decide) (by decide) (by decide) (by decide)
    (by decide) (by decide) (by decide) (by decide) (by decide) (by decide) (by decide)
    (by decide)
  exact h

/- ### C8: idempotence of timestamp parsing

Embeds the string path of `processing.py`, `parse_timestamp` (lines 11-84).
An instant is a `PyDatetime` record; `isoformat` models the stdlib
`datetime.isoformat` rendering (4/2/2-digit zero-padded fields, a
6-digit fractional part only when microseconds are nonzero, and a
`±HH:MM` offset for aware values); `preprocess` embeds the string
manipulation of lines 18-54 (trailing `Z` replacement, fraction/timezone
separation, truncation to microseconds, reconstruction); the stdlib parsers
`datetime.fromisoformat` (line 58) and the `pd.to_datetime` fallback
(lines 62-64) are parameters; `pyToUTC` embeds the normalization of lines
79-82 (naive values are localized to UTC, aware non-UTC values converted
via epoch arithmetic). -/

structure PyDatetime where
  year : ℕ
  month : ℕ
  day : ℕ
  hour : ℕ
  minute : ℕ
  second : ℕ
  micro : ℕ
  utcOffset : Option ℤ
deriving DecidableEq

def digitChar : ℕ → Char
  | 0 => '0'
  | 1 => '1'
  | 2 => '2'
  | 3 => '3'
  | 4 => '4'
  | 5 => '5'
  | 6 => '6'
  | 7 => '7'
  | 8 => '8'
  | 9 => '9'
  | _ => '?'

def pad2 (n : ℕ) : Str := [digitChar (n / 10), digitChar (n % 10)]

def pad4 (n : ℕ) : Str :=
  [digitChar (n / 1000), digitChar (n / 100 % 10), digitChar (n / 10 % 10), digitChar (n % 10)]

def pad6 (n : ℕ) : Str :=
  [digitChar (n / 100000), digitChar (n / 10000 % 10), digitChar (n / 1000 % 10),
   digitChar (n / 100 % 10), digitChar (n / 10 % 10), digitChar (n % 10)]

def offsetStr : Option ℤ → Str
  | none => []
  | some o =>
    (if o < 0 then '-' else '+') :: (pad2 (o.natAbs / 3600) ++ ':' :: pad2 (o.natAbs % 3600 / 60))

def isoDate (t : PyDatetime) : Str :=
  pad4 t.year ++ ('-' :: (pad2 t.month ++ ('-' :: pad2 t.day)))

def isoTime (t : PyDatetime) : Str :=
  pad2 t.hour ++ (':' :: (pad2 t.minute ++ (':' :: pad2 t.second)))

def isoFrac (t : PyDatetime) : Str := if t.micro = 0 then [] else '.' :: pad6 t.micro

def isoformat (t : PyDatetime) : Str :=
  isoDate t ++ ('T' :: (isoTime t ++ (isoFrac t ++ offsetStr t.utcOffset)))

def lastChar : Str → Option Char
  | [] => none
  | [c] => some c
  | _ :: c :: rest => lastChar (c :: rest)

def endsWithZ (s : Str) : Bool := lastChar s == some 'Z'

def dropLastChar (s : Str) : Str := s.take (s.length - 1)

def fracTz (rest : Str) : Str × Str :=
  if '+' ∈ rest then
    match splitFirst '+' rest with
    | (f, some tz) => (f, '+' :: tz)
    | (f, none) => (f, [])
  else if '-' ∈ rest then
    if rest.length > 1 then
      let idx := rest.length - 1 - rest.reverse.findIdx (fun c => c == '-')
      let potential_tz := rest.drop (idx + 1)
      if potential_tz.length ≥ 4 && allDigits (potential_tz.filter (fun c => !(c == ':')))
      then (rest.take idx, '-' :: potential_tz)
      else (rest, [])
    else (rest, [])
  else (rest, [])

def truncFrac (f : Str) : Str := if f.length > 6 then f.take 6 else f

def preprocess (s : Str) : Str :=
  let s1 := if endsWithZ s then dropLastChar s ++ "+00:00".data else s
  if '.' ∈ s1 then
    match splitFirst '.' s1 with
    | (base, some rest) => base ++ ('.' :: (truncFrac (fracTz rest).1 ++ (fracTz rest).2))
    | (_, none) => s1
  else s1

def daysFromCivil (y m d : ℤ) : ℤ :=
  let y1 := if m ≤ 2 then y - 1 else y
  let era := Int.fdiv y1 400
  let yoe := y1 - era * 400
  let mp := (m + 9) % 12
  let doy := Int.fdiv (153 * mp + 2) 5 + d - 1
  let doe := yoe * 365 + Int.fdiv yoe 4 - Int.fdiv yoe 100 + doy
  era * 146097 + doe - 719468

def civilFromDays (z : ℤ) : ℤ × ℤ × ℤ :=
  let z1 := z + 719468
  let era := Int.fdiv z1 146097
  let doe := z1 - era * 146097
  let yoe := Int.fdiv (doe - Int.fdiv doe 1460 + Int.fdiv doe 36524 - Int.fdiv doe 146096) 365
  let y0 := yoe + era * 400
  let doy := doe - (365 * yoe + Int.fdiv yoe 4 - Int.fdiv yoe 100)
  let mp := Int.fdiv (5 * doy + 2) 153
  let d := doy - Int.fdiv (153 * mp + 2) 5 + 1
  let m := mp + (if mp < 10 then 3 else -9)
  (if m ≤ 2 then y0 + 1 else y0, m, d)

def toEpochMicro (t : PyDatetime) : ℤ :=
  ((daysFromCivil t.year t.month t.day) * 86400 +
    t.hour * 3600 + t.minute * 60 + t.second - (t.utcOffset.getD 0)) * 1000000 + t.micro

def fromEpochMicroUTC (n : ℤ) : PyDatetime :=
  let micro := n % 1000000
  let secs := Int.fdiv n 1000000
  let days := Int.fdiv secs 86400
  let sod := secs - days * 86400
  let c := civilFromDays days
  ⟨c.1.toNat, c.2.1.toNat, c.2.2.toNat, (Int.fdiv sod 3600).toNat,
    ((sod % 3600).fdiv 60).toNat, (sod % 60).toNat, micro.toNat, some 0⟩

def shiftToUTC (t : PyDatetime) : PyDatetime := fromEpochMicroUTC (toEpochMicro t)

def pyToUTC (t : PyDatetime) : PyDatetime :=
  match t.utcOffset with
  | none => { t with utcOffset := some 0 }
  | some o => if o = 0 then t else shiftToUTC t

def parse_timestamp (fromiso pandasParse : Str → Option PyDatetime) (s : Str) :
    Option PyDatetime :=
  if pyStrip s = [] then none
  else
    match (match fromiso (preprocess s) with
           | some dt => some dt
           | none => pandasParse s) with
    | none => none
    | some dt => some (pyToUTC dt)

theorem digitChar_props (d : ℕ) :
    digitChar d ≠ '.' ∧ digitChar d ≠ '+' ∧ digitChar d ≠ 'Z' ∧
      isSpaceCh (digitChar d) = false := by
  unfold digitChar
  split <;> refine ⟨by decide, by decide, by decide, by decide⟩

theorem mem_pad2 {c : Char} {n : ℕ} (h : c ∈ pad2 n) : ∃ d, c = digitChar d := by
  simp only [pad2, List.mem_cons, List.mem_singleton, List.not_mem_nil, or_false] at h
  rcases h with h | h
  · exact ⟨_, h⟩
  · exact ⟨_, h⟩

theorem mem_pad4 {c : Char} {n : ℕ} (h : c ∈ pad4 n) : ∃ d, c = digitChar d := by
  simp only [pad4, List.mem_cons, List.not_mem_nil, or_false] at h
  rcases h with h | h | h | h <;> exact ⟨_, h⟩

theorem mem_pad6 {c : Char} {n : ℕ} (h : c ∈ pad6 n) : ∃ d, c = digitChar d := by
  simp only [pad6, List.mem_cons, List.not_mem_nil, or_false] at h
  rcases h with h | h | h | h | h | h <;> exact ⟨_, h⟩

/-- Character classification for the prefix before any fractional dot. -/
theorem isoHead_chars (t : PyDatetime) :
    ∀ c ∈ isoDate t ++ ('T' :: isoTime t), c = '-' ∨ c = ':' ∨ c = 'T' ∨ ∃ d, c = digitChar d := by
  intro c h
  rcases List.mem_append.mp h with h | h
  · unfold isoDate at h
    rcases List.mem_append.mp h with h | h
    · exact Or.inr (Or.inr (Or.inr (mem_pad4 h)))
    · rcases List.mem_cons.mp h with h | h
      · exact Or.inl h
      · rcases List.mem_append.mp h with h | h
        · exact Or.inr (Or.inr (Or.inr (mem_pad2 h)))
        · rcases List.mem_cons.mp h with h | h
          · exact Or.inl h
          · exact Or.inr (Or.inr (Or.inr (mem_pad2 h)))
  · rcases List.mem_cons.mp h with h | h
    · exact Or.inr (Or.inr (Or.inl h))
    · unfold isoTime at h
      rcases List.mem_append.mp h with h | h
      · exact Or.inr (Or.inr (Or.inr (mem_pad2 h)))
      · rcases List.mem_cons.mp h with h | h
        · exact Or.inr (Or.inl h)
        · rcases List.mem_append.mp h with h | h
          · exact Or.inr (Or.inr (Or.inr (mem_pad2 h)))
          · rcases List.mem_cons.mp h with h | h
            · exact Or.inr (Or.inl h)
            · exact Or.inr (Or.inr (Or.inr (mem_pad2 h)))

theorem isoHead_no_dot (t : PyDatetime) : '.' ∉ isoDate t ++ ('T' :: isoTime t) := by
  intro h
  rcases isoHead_chars t '.' h with h1 | h1 | h1 | ⟨d, h1⟩
  · exact absurd h1 (by decide)
  · exact absurd h1 (by decide)
  · exact absurd h1 (by decide)
  · exact absurd h1.symm (digitChar_props d).1

theorem offsetStr_zero : offsetStr (some 0) = "+00:00".data := by decide

theorem lastChar_append (a b : Str) (hb : b ≠ []) : lastChar (a ++ b) = lastChar b := by
  induction a with
  | nil => rfl
  | cons x xs ih =>
    rw [List.cons_append]
    cases hxs : xs ++ b with
    | nil => exact absurd (List.append_eq_nil.mp hxs).2 hb
    | cons y ys =>
      rw [show lastChar (x :: y :: ys) = lastChar (y :: ys) from rfl, ← hxs, ih]

theorem splitFirst_append (c : Char) (A B : Str) (hA : c ∉ A) :
    splitFirst c (A ++ c :: B) = (A, some B) := by
  induction A with
  | nil => simp [splitFirst]
  | cons a as ih =>
    have ha : a ≠ c := fun h => hA (h ▸ List.mem_cons_self a as)
    rw [List.cons_append]
    unfold splitFirst
    rw [if_neg ha, ih (fun h => hA (List.mem_cons.mpr (Or.inr h)))]

theorem splitFirst_not_mem (c : Char) (A : Str) (hA : c ∉ A) :
    splitFirst c A = (A, none) := by
  induction A with
  | nil => rfl
  | cons a as ih =>
    have ha : a ≠ c := fun h => hA (h ▸ List.mem_cons_self a as)
    unfold splitFirst
    rw [if_neg ha, ih (fun h => hA (List.mem_cons.mpr (Or.inr h)))]

theorem preprocess_isoformat (t : PyDatetime) (hutc : t.utcOffset = some 0) :
    preprocess (isoformat t) = isoformat t := by
  have hiso : isoformat t =
      (isoDate t ++ ('T' :: isoTime t)) ++ (isoFrac t ++ "+00:00".data) := by
    unfold isoformat
    rw [hutc, offsetStr_zero]
    simp [List.append_assoc]
  have hlast : endsWithZ (isoformat t) = false := by
    unfold endsWithZ
    rw [hiso, ← List.append_assoc, lastChar_append _ _ (by decide)]
    decide
  unfold preprocess
  rw [hlast]
  simp only [Bool.false_eq_true, if_false]
  by_cases hm : t.micro = 0
  · have hfrac : isoFrac t = [] := by simp [isoFrac, hm]
    have hnodot : '.' ∉ isoformat t := by
      rw [hiso, hfrac]
      intro h
      rcases List.mem_append.mp h with h | h
      · exact isoHead_no_dot t h
      · rw [List.nil_append] at h
        exact absurd h (by decide)
    rw [if_neg hnodot]
  · have hfrac : isoFrac t = '.' :: pad6 t.micro := by simp [isoFrac, hm]
    have hform : isoformat t =
        (isoDate t ++ ('T' :: isoTime t)) ++ '.' :: (pad6 t.micro ++ "+00:00".data) := by
      rw [hiso, hfrac]
      simp [List.append_assoc]
    have hdot : '.' ∈ isoformat t := by
      rw [hform]
      exact List.mem_append.mpr (Or.inr (List.mem_cons_self _ _))
    rw [if_pos hdot]
    have hsplit : splitFirst '.' (isoformat t) =
        (isoDate t ++ ('T' :: isoTime t), some (pad6 t.micro ++ "+00:00".data)) := by
      rw [hform]
      exact splitFirst_append '.' _ _ (isoHead_no_dot t)
    rw [hsplit]
    have hplus_notin : '+' ∉ pad6 t.micro := by
      intro h
      obtain ⟨d, hd⟩ := mem_pad6 h
      exact absurd hd.symm (digitChar_props d).2.1
    have hft : fracTz (pad6 t.micro ++ "+00:00".data) =
        (pad6 t.micro, '+' :: "00:00".data) := by
      unfold fracTz
      rw [if_pos (List.mem_append.mpr (Or.inr (by decide)))]
      have hx : ("+00:00".data : Str) = '+' :: "00:00".data := by decide
      rw [hx, splitFirst_append '+' _ _ hplus_notin]
    have htrunc : truncFrac (pad6 t.micro) = pad6 t.micro := by
      unfold truncFrac
      rw [if_neg (by simp [pad6])]
    simp only [hft, htrunc]
    rw [hform]

theorem isoformat_no_space (t : PyDatetime) (hutc : t.utcOffset = some 0) :
    ∀ c ∈ isoformat t, isSpaceCh c = false := by
  intro c h
  have hiso : isoformat t =
      (isoDate t ++ ('T' :: isoTime t)) ++ (isoFrac t ++ "+00:00".data) := by
    unfold isoformat
    rw [hutc, offsetStr_zero]
    simp [List.append_assoc]
  rw [hiso] at h
  rcases List.mem_append.mp h with h | h
  · rcases isoHead_chars t c h with h1 | h1 | h1 | ⟨d, h1⟩
    · rw [h1]; decide
    · rw [h1]; decide
    · rw [h1]; decide
    · rw [h1]; exact (digitChar_props d).2.2.2
  · rcases List.mem_append.mp h with h | h
    · unfold isoFrac at h
      split at h
      · cases h
      · rcases List.mem_cons.mp h with h | h
        · rw [h]; decide
        · obtain ⟨d, hd⟩ := mem_pad6 h
          rw [hd]; exact (digitChar_props d).2.2.2
    · exact (by decide : ∀ c ∈ ("+00:00".data : Str), isSpaceCh c = false) c h

/-- C8. Timestamp parsing is idempotent: for any UTC-aware instant `t` of the
kind `parse_timestamp` produces, provided the stdlib ISO parser round-trips
its own rendering (`fromiso (isoformat t) = some t`), feeding the ISO
rendering back through `parse_timestamp` returns exactly `t`: the
preprocessing of lines 18-54 leaves the rendering unchanged, the strip guard
passes, and the UTC normalization is the identity on an already-UTC value. -/
theorem parse_timestamp_idem (fromiso pandasParse : Str → Option PyDatetime)
    (t : PyDatetime) (hutc : t.utcOffset = some 0)
    (hiso : fromiso (isoformat t) = some t) :
    parse_timestamp fromiso pandasParse (isoformat t) = some t := by
  have hne : isoformat t ≠ [] := by
    unfold isoformat isoDate pad4
    intro h
    simp at h
  have hstrip : pyStrip (isoformat t) = isoformat t :=
    pyStrip_of_no_space _ (isoformat_no_space t hutc)
  unfold parse_timestamp
  rw [hstrip, if_neg hne, preprocess_isoformat t hutc, hiso]
  simp [pyToUTC, hutc]

/-- Concrete instant for the C8 witness. -/
def isoT0 : PyDatetime := ⟨2024, 5, 13, 7, 30, 15, 123456, some 0⟩

/-- Concrete stdlib ISO parser stub for the C8 witness. -/
def fromisoStub : Str → Option PyDatetime :=
  fun s => if s = isoformat isoT0 then some isoT0 else none

/-- Concrete pandas fallback stub for the C8 witness (never succeeds). -/
def pandasStub : Str → Option PyDatetime := fun _ => none

/-- Witness for C8 at the instant 2024-05-13T07:30:15.123456+00:00. -/
theorem parse_timestamp_idem_witness :
    parse_timestamp fromisoStub pandasStub (isoformat isoT0) = some isoT0 :=
  parse_timestamp_idem fromisoStub pandasStub isoT0 rfl (by simp [fromisoStub])
